import Mathlib

/-!
# stt-x-tts: the HTTP façade over the room service (`src/main.go`)

A shallow embedding of `src/main.go` (and of the duplicated start-up code of
`src/pkg/test.go`).  Go strings are Lean `String`s, Go's `(value, error)` results are
pairs whose second component is `none` for a `nil` error, and a `nil` pointer is `none`.

The collaborators the program only *calls* (the clock, the room-service client, the token
signer, the session join, the `.env` loader) are parameters of the embedding: every theorem
quantifies over all of their behaviours.  `log.Println` lines are not modelled.
-/

set_option autoImplicit false
set_option maxRecDepth 100000

namespace SttXTts

/-! ## Go values -/

/-- Go `error` value that is not `nil`. -/
abbrev GoError := String

/-- Go `time.Duration`: a number of nanoseconds. -/
abbrev Duration := Int

/-- Go `time.Hour`. -/
def time.Hour : Duration := 60 * (60 * (1000 * (1000 * 1000)))

/-- Go `time.Time` as read by `time.Now()`: the wall-clock instant (whole seconds since the
Unix epoch and the nanoseconds within that second) together with the offset east of UTC, in
seconds, that the process's local `Location` has at that instant. -/
structure Time where
  unixSec : Int
  nsec : Nat
  offset : Int
  deriving DecidableEq, Repr

/-! ## `time.Time.Format` with the layout `"20060102150405"`

The Go standard library's `time` package, for the one layout `createRoomId` uses:
`Time.abs`, `absDate`, `absClock`, `isLeap`, `appendInt` and the six layout chunks, as in
the Go releases with the cycle-cutting `absDate` (later releases compute the same
proleptic Gregorian date by another route). -/

/-- Go `secondsPerMinute`. -/
abbrev secondsPerMinute : Nat := 60

/-- Go `secondsPerHour`. -/
abbrev secondsPerHour : Nat := 60 * secondsPerMinute

/-- Go `secondsPerDay`. -/
abbrev secondsPerDay : Nat := 24 * secondsPerHour

/-- Go `daysPer400Years`. -/
abbrev daysPer400Years : Nat := 365 * 400 + 97

/-- Go `daysPer100Years`. -/
abbrev daysPer100Years : Nat := 365 * 100 + 24

/-- Go `daysPer4Years`. -/
abbrev daysPer4Years : Nat := 365 * 4 + 1

/-- Go `absoluteZeroYear`: the year of absolute second zero. -/
abbrev absoluteZeroYear : Int := -292277022399

/-- Go `unixToInternal`: seconds from 1 January of year 1 to the Unix epoch. -/
abbrev unixToInternal : Int := (1969 * 365 + 1969 / 4 - 1969 / 100 + 1969 / 400) * 86400

/-- Go `internalToAbsolute`, the value of
`-(absoluteZeroYear - internalYear) * 365.2425 * secondsPerDay`. -/
abbrev internalToAbsolute : Int := 9223371966579724800

/-- Go `(Time).abs`: the local wall-clock second counted from 1 January of
`absoluteZeroYear`, as a `uint64` (the sum wraps modulo `2^64`). -/
def Time.abs (t : Time) : Nat :=
  ((t.unixSec + t.offset + (unixToInternal + internalToAbsolute)) % 2 ^ 64).toNat

/-- Go `isLeap`.  (Go's `%` truncates and Lean's floors; both are zero for the same
years.) -/
def isLeap (year : Int) : Bool :=
  year % 4 == 0 && (year % 100 != 0 || year % 400 == 0)

/-- Go `daysBefore`: `daysBefore[m]` is the number of days of a non-leap year before
month `m + 1`. -/
def daysBefore : List Nat :=
  [0, 31, 31 + 28, 31 + 28 + 31, 31 + 28 + 31 + 30, 31 + 28 + 31 + 30 + 31,
    31 + 28 + 31 + 30 + 31 + 30, 31 + 28 + 31 + 30 + 31 + 30 + 31,
    31 + 28 + 31 + 30 + 31 + 30 + 31 + 31, 31 + 28 + 31 + 30 + 31 + 30 + 31 + 31 + 30,
    31 + 28 + 31 + 30 + 31 + 30 + 31 + 31 + 30 + 31,
    31 + 28 + 31 + 30 + 31 + 30 + 31 + 31 + 30 + 31 + 30,
    31 + 28 + 31 + 30 + 31 + 30 + 31 + 31 + 30 + 31 + 30 + 31]

/-- The first half of Go `absDate`: the number of whole years since `absoluteZeroYear`
and the zero-based day within the year, by cutting 400-, 100-, 4- and 1-year cycles off
the day count (`n >> 2` is `n / 4`). -/
def absYearDay (abs : Nat) : Nat × Nat :=
  let d := abs / secondsPerDay
  let n := d / daysPer400Years
  let y := 400 * n
  let d := d - daysPer400Years * n
  let n := d / daysPer100Years
  let n := n - n / 4
  let y := y + 100 * n
  let d := d - daysPer100Years * n
  let n := d / daysPer4Years
  let y := y + 4 * n
  let d := d - daysPer4Years * n
  let n := d / 365
  let n := n - n / 4
  let y := y + n
  let d := d - 365 * n
  (y, d)

/-- The second half of Go `absDate` (`full = true`): month (January is 1) and day of the
month from the zero-based day of the year. -/
def monthDay (leap : Bool) (yday : Nat) : Nat × Nat :=
  if leap && yday == 31 + 29 - 1 then
    (2, 29)
  else
    let day := if leap && decide (yday > 31 + 29 - 1) then yday - 1 else yday
    let month := day / 31
    let stop := daysBefore.getD (month + 1) 0
    if day ≥ stop then
      (month + 1 + 1, day - stop + 1)
    else
      (month + 1, day - daysBefore.getD month 0 + 1)

/-- Go `absDate(abs, true)`: year, month, day and zero-based day of the year. -/
def absDate (abs : Nat) : Int × Nat × Nat × Nat :=
  let yd := absYearDay abs
  let year : Int := (yd.1 : Int) + absoluteZeroYear
  let md := monthDay (isLeap year) yd.2
  (year, md.1, md.2, yd.2)

/-- Go `absClock`: hour, minute and second within the day. -/
def absClock (abs : Nat) : Nat × Nat × Nat :=
  let sec := abs % secondsPerDay
  let hour := sec / secondsPerHour
  let sec := sec - hour * secondsPerHour
  let min := sec / secondsPerMinute
  let sec := sec - min * secondsPerMinute
  (hour, min, sec)

/-- The byte `'0' + d` that `appendInt` writes for a digit. -/
def digitChar (d : Nat) : Char := Char.ofNat ('0'.toNat + d)

/-- The loop of Go `appendInt` that assembles the decimal digits of `u` from the last one
backwards: `for u >= 10 { q := u / 10; b[i] = '0' + u - q*10; u = q }; b[i] = '0' + u`.
The first argument bounds the number of turns; `decimal` passes enough. -/
def decimalLoop : Nat → Nat → List Char → List Char
  | 0, u, acc => digitChar (u - u / 10 * 10) :: acc
  | fuel + 1, u, acc =>
    if u ≥ 10 then decimalLoop fuel (u / 10) (digitChar (u - u / 10 * 10) :: acc)
    else digitChar u :: acc

/-- The decimal digits of `u`, most significant first, without padding. -/
def decimal (u : Nat) : List Char := decimalLoop u u []

/-- Go `appendInt(b, x, width)`: appends to `b` a minus sign when `x < 0`, then zeros
until the digits of `|x|` fill `width` places, then those digits.  (The two- and four-digit
fast paths of recent Go versions write the same bytes.) -/
def appendInt (b : String) (x : Int) (width : Nat) : String :=
  let sign : List Char := if x < 0 then ['-'] else []
  let ds := decimal x.natAbs
  b ++ String.mk (sign ++ List.replicate (width - ds.length) '0' ++ ds)

/-- The chunks Go's `nextStdChunk` cuts a layout into, for those that occur in
`"20060102150405"`. -/
inductive StdChunk where
  | stdLongYear
  | stdZeroMonth
  | stdZeroDay
  | stdHour
  | stdZeroMinute
  | stdZeroSecond
  deriving DecidableEq, Repr

/-- The layout `"20060102150405"` as `nextStdChunk` splits it: `2006`, `01`, `02`, `15`,
`04`, `05`, with no literal text before, between or after the chunks. -/
def layout20060102150405 : List StdChunk :=
  [.stdLongYear, .stdZeroMonth, .stdZeroDay, .stdHour, .stdZeroMinute, .stdZeroSecond]

/-- One turn of the `switch` in Go `(Time).appendFormat`. -/
def appendChunk (t : Time) (b : String) : StdChunk → String
  | .stdLongYear => appendInt b (absDate t.abs).1 4
  | .stdZeroMonth => appendInt b (absDate t.abs).2.1 2
  | .stdZeroDay => appendInt b (absDate t.abs).2.2.1 2
  | .stdHour => appendInt b (absClock t.abs).1 2
  | .stdZeroMinute => appendInt b (absClock t.abs).2.1 2
  | .stdZeroSecond => appendInt b (absClock t.abs).2.2 2

/-- Go `t.Format("20060102150405")`. -/
def Time.Format (t : Time) : String :=
  layout20060102150405.foldl (appendChunk t) ""

/-- Go `createRoomId` of `main.go`, with the reading of `time.Now()` made explicit. -/
def createRoomId (now : Time) (userID : String) : String :=
  userID ++ "-" ++ now.Format

/-! ## Request and collaborator types -/

/-- Go `JoinRoomRequest` of `main.go`. -/
structure JoinRoomRequest where
  UserID : String
  deriving DecidableEq, Repr

/-- Go `DeleteRoomRequest` of `main.go`. -/
structure DeleteRoomRequest where
  RoomID : String
  deriving DecidableEq, Repr

/-- Go `livekit.Room`, the room metadata the service returns (the program never looks
inside it; a few of its fields are kept so that values can be told apart). -/
structure livekit.Room where
  Sid : String
  Name : String
  EmptyTimeout : Nat
  MaxParticipants : Nat
  deriving DecidableEq, Repr

/-- Go `livekit.ListRoomsResponse`. -/
structure livekit.ListRoomsResponse where
  Rooms : List livekit.Room
  deriving DecidableEq, Repr

/-- Go `livekit.CreateRoomRequest` with the fields `createRoom` sets. -/
structure livekit.CreateRoomRequest where
  Name : String
  EmptyTimeout : Nat
  MaxParticipants : Nat
  deriving DecidableEq, Repr

/-- Go `livekit.DeleteRoomRequest`. -/
structure livekit.DeleteRoomRequest where
  Room : String
  deriving DecidableEq, Repr

/-- Go `auth.VideoGrant` with the fields `getToken` sets (`CanPublish` and `CanSubscribe`
are `*bool`). -/
structure auth.VideoGrant where
  RoomJoin : Bool
  Room : String
  CanPublish : Option Bool
  CanSubscribe : Option Bool
  deriving DecidableEq, Repr

/-- Go `auth.AccessToken` as built by `auth.NewAccessToken` and the setters `AddGrant`,
`SetIdentity`, `SetName`, `SetValidFor`. -/
structure auth.AccessToken where
  apiKey : String
  secret : String
  grant : Option auth.VideoGrant
  identity : String
  name : String
  validFor : Duration
  deriving DecidableEq, Repr

/-- Go `lksdk.ConnectInfo` with the fields `noxJoinRoom` sets. -/
structure lksdk.ConnectInfo where
  APIKey : String
  APISecret : String
  RoomName : String
  ParticipantIdentity : String
  deriving DecidableEq, Repr

/-- Go `auth.NewAccessToken(key, secret)`. -/
def auth.NewAccessToken (key secret : String) : auth.AccessToken :=
  { apiKey := key, secret := secret, grant := none, identity := "", name := "", validFor := 0 }

/-- Go `(*AccessToken).AddGrant`. -/
def auth.AccessToken.AddGrant (tok : auth.AccessToken) (g : auth.VideoGrant) :
    auth.AccessToken :=
  { tok with grant := some g }

/-- Go `(*AccessToken).SetIdentity`. -/
def auth.AccessToken.SetIdentity (tok : auth.AccessToken) (identity : String) :
    auth.AccessToken :=
  { tok with identity := identity }

/-- Go `(*AccessToken).SetName`. -/
def auth.AccessToken.SetName (tok : auth.AccessToken) (name : String) : auth.AccessToken :=
  { tok with name := name }

/-- Go `(*AccessToken).SetValidFor`. -/
def auth.AccessToken.SetValidFor (tok : auth.AccessToken) (d : Duration) :
    auth.AccessToken :=
  { tok with validFor := d }

/-- The package-level variables `apiKey`, `apiSecret`, `HOST` of `main.go`. -/
structure Config where
  apiKey : String
  apiSecret : String
  HOST : String
  deriving DecidableEq, Repr

/-- The collaborators outside the program: the clock read by `time.Now()`, the three
room-service operations of `client` (the response of `DeleteRoom` carries nothing and is
left out), the signer behind `at.ToJWT()` and the session join `lksdk.ConnectToRoom`
(whose room is represented by its name). -/
structure World where
  now : Time
  CreateRoom : livekit.CreateRoomRequest → Option livekit.Room × Option GoError
  DeleteRoom : livekit.DeleteRoomRequest → Option GoError
  ListRooms : Option livekit.ListRoomsResponse × Option GoError
  ToJWT : auth.AccessToken → String × Option GoError
  ConnectToRoom : String → lksdk.ConnectInfo → Option String × Option GoError

/-- One call that leaves the program. -/
inductive Call where
  | CreateRoom (req : livekit.CreateRoomRequest)
  | DeleteRoom (req : livekit.DeleteRoomRequest)
  | ListRooms
  | ToJWT (tok : auth.AccessToken)
  | ConnectToRoom (host : String) (info : lksdk.ConnectInfo)
  deriving DecidableEq, Repr

/-- Value stored in a `fiber.Map`. -/
inductive JsonValue where
  | str (s : String)
  | room (r : Option livekit.Room)
  | rooms (r : Option livekit.ListRoomsResponse)
  deriving DecidableEq, Repr

/-- Go `fiber.Map`, as the key/value pairs of the literal in source order. -/
abbrev fiber.Map := List (String × JsonValue)

/-- Go `fiber.ErrBadRequest.Code`. -/
def fiber.ErrBadRequest.Code : Nat := 400

/-- Go `fiber.StatusOK`, the status of a context on which `Status` was not called. -/
def fiber.StatusOK : Nat := 200

/-- What a route handler hands back to the router: a JSON body with a status, a plain
string, or the Go error it returned. -/
inductive Reply where
  | json (status : Nat) (body : fiber.Map)
  | text (status : Nat) (body : String)
  | err (e : GoError)
  deriving DecidableEq, Repr

/-- The observable run of a handler: its reply, the external calls it made in order, and
the room identifiers it passed to `go noxJoinRoom(...)`. -/
structure Run where
  reply : Reply
  calls : List Call
  spawned : List String
  deriving DecidableEq, Repr

/-! ## Start-up: `getEnv` and the package-level variables -/

/-- The process environment (`os.Environ()`), as key/value pairs. -/
abbrev Environ := List (String × String)

/-- Go `os.Getenv`: the value of the variable, or the empty string when it is not
present. -/
def os.Getenv (env : Environ) (key : String) : String :=
  (env.lookup key).getD ""

/-- Go `os.Setenv` (Unix): fails with `EINVAL`, leaving the environment as it was, when
the key is empty or holds `=` or a NUL byte, or when the value holds a NUL byte; otherwise
it sets the variable, replacing an earlier value. -/
def os.Setenv (env : Environ) (key value : String) : Environ × Option GoError :=
  if key.data.isEmpty || key.data.any (fun c => c == '=' || c == Char.ofNat 0)
      || value.data.any (fun c => c == Char.ofNat 0) then
    (env, some "invalid argument")
  else
    ((key, value) :: env.filter (fun kv => kv.1 != key), none)

/-- Go `godotenv.Load(".env")`.  `file` is what reading and parsing `.env` gave: an
error, or the parsed key/value map.  A variable of the file is set only when the process
environment did not have it before the call; the error of `os.Setenv` is discarded. -/
def godotenv.Load (file : Except GoError (List (String × String))) (env : Environ) :
    Environ × Option GoError :=
  match file with
  | .error e => (env, some e)
  | .ok envMap =>
    (envMap.foldl
      (fun cur kv => if (env.lookup kv.1).isSome then cur else (os.Setenv cur kv.1 kv.2).1)
      env,
     none)

/-- How a start-up step ends: `log.Fatalf` prints the message and exits the process, or
the step returns a value and leaves the process environment as given. -/
inductive Startup (α : Type) where
  | halted (message : String)
  | returned (value : α) (env : Environ)
  deriving DecidableEq, Repr

/-- Go `getEnv` (the same function in `main.go` and in `pkg/test.go`). -/
def getEnv (file : Except GoError (List (String × String))) (env : Environ) (key : String) :
    Startup String :=
  match godotenv.Load file env with
  | (_, some _) => .halted "Error loading .env file"
  | (env, none) => .returned (os.Getenv env key) env

/-- The initialisation of the package-level variables `apiKey`, `apiSecret`, `HOST`, in
source order; the process reaches `main` only when all three calls return. -/
def initVars (file : Except GoError (List (String × String))) (env : Environ) :
    Startup Config :=
  match getEnv file env "LIVEKIT_API_KEY" with
  | .halted m => .halted m
  | .returned apiKey env =>
    match getEnv file env "LIVEKIT_API_SECRET" with
    | .halted m => .halted m
    | .returned apiSecret env =>
      match getEnv file env "LIVEKIT_HOST" with
      | .halted m => .halted m
      | .returned HOST env =>
        .returned { apiKey := apiKey, apiSecret := apiSecret, HOST := HOST } env

/-! ## The functions of `main.go` that call the collaborators

Each returns its Go result together with the external calls it made. -/

/-- Go `getToken`. -/
def getToken (cfg : Config) (w : World) (roomID identity name : String) :
    (String × Option GoError) × List Call :=
  let canPublish := true
  let canSubscribe := true
  let tok := auth.NewAccessToken cfg.apiKey cfg.apiSecret
  let grant : auth.VideoGrant :=
    { RoomJoin := true
      Room := roomID
      CanPublish := some canPublish
      CanSubscribe := some canSubscribe }
  let tok := (((tok.AddGrant grant).SetIdentity identity).SetName name).SetValidFor time.Hour
  (w.ToJWT tok, [Call.ToJWT tok])

/-- Go `listRooms`: the error of `client.ListRooms` is dropped. -/
def listRooms (w : World) : Option livekit.ListRoomsResponse × List Call :=
  let rooms := w.ListRooms.1
  (rooms, [Call.ListRooms])

/-- Go `createRoom`: the error of `client.CreateRoom` is dropped. -/
def createRoom (w : World) (roomID : String) : Option livekit.Room × List Call :=
  let req : livekit.CreateRoomRequest :=
    { Name := roomID
      EmptyTimeout := 10 * 60
      MaxParticipants := 10 }
  let room := (w.CreateRoom req).1
  (room, [Call.CreateRoom req])

/-- Go `deleteRoom`: both results of `client.DeleteRoom` are dropped. -/
def deleteRoom (w : World) (roomID : String) : List Call :=
  let req : livekit.DeleteRoomRequest := { Room := roomID }
  let _ := w.DeleteRoom req
  [Call.DeleteRoom req]

/-- How a goroutine ends: it returns, or it panics (which, not being recovered, ends the
whole process). -/
inductive GoroutineEnd where
  | returned
  | panicked (e : GoError)
  deriving DecidableEq, Repr

/-- Go `noxJoinRoom`. -/
def noxJoinRoom (cfg : Config) (w : World) (roomID : String) : GoroutineEnd × List Call :=
  let identity := "nox"
  let info : lksdk.ConnectInfo :=
    { APIKey := cfg.apiKey
      APISecret := cfg.apiSecret
      RoomName := roomID
      ParticipantIdentity := identity }
  match (w.ConnectToRoom cfg.HOST info).2 with
  | some err => (.panicked err, [Call.ConnectToRoom cfg.HOST info])
  | none => (.returned, [Call.ConnectToRoom cfg.HOST info])

/-! ## The route handlers of `main`

`bind` is the outcome of `c.Bind().JSON(p)` on the request body: an error, or the decoded
request, in which a field that the body lacks is the empty string.  `c.JSON(m)` is the
reply with body `m` and the status set on the context. -/

/-- Handler of `GET /`. -/
def getRoot : Run :=
  { reply := .text fiber.StatusOK "/", calls := [], spawned := [] }

/-- Handler of `POST /get/token`, as the code registers and writes it.  (The comment block
above it in `main.go` is headed `GET /get/token` and lists a request field `roomid` and a
response with `token` only; the route is `POST`, the decoded request has `userid` alone,
and the body has `token` and `room`.) -/
def postGetToken (cfg : Config) (w : World) (bind : Except GoError JoinRoomRequest) : Run :=
  match bind with
  | .error err => { reply := .err err, calls := [], spawned := [] }
  | .ok p =>
    if p.UserID == "" then
      { reply := .json fiber.ErrBadRequest.Code [("error", .str "userid is required")]
        calls := []
        spawned := [] }
    else
      let UserID := p.UserID
      let RoomID := createRoomId w.now p.UserID
      let room := createRoom w RoomID
      let token := getToken cfg w RoomID "human" UserID
      match token.1.2 with
      | some err => { reply := .err err, calls := room.2 ++ token.2, spawned := [] }
      | none =>
        { reply := .json fiber.StatusOK [("token", .str token.1.1), ("room", .room room.1)]
          calls := room.2 ++ token.2
          spawned := [RoomID] }

/-- Handler of `POST /create/room`. -/
def postCreateRoom (w : World) (bind : Except GoError JoinRoomRequest) : Run :=
  match bind with
  | .error err => { reply := .err err, calls := [], spawned := [] }
  | .ok p =>
    let RoomID := createRoomId w.now p.UserID
    let room := createRoom w RoomID
    { reply := .json fiber.StatusOK [("room", .room room.1)], calls := room.2, spawned := [] }

/-- Handler of `POST /delete/room`. -/
def postDeleteRoom (w : World) (bind : Except GoError DeleteRoomRequest) : Run :=
  match bind with
  | .error err => { reply := .err err, calls := [], spawned := [] }
  | .ok p =>
    if p.RoomID == "" then
      { reply := .json fiber.ErrBadRequest.Code [("error", .str "roomid is required")]
        calls := []
        spawned := [] }
    else
      let RoomID := p.RoomID
      let calls := deleteRoom w RoomID
      { reply := .json fiber.StatusOK [("room", .str RoomID), ("status", .str "deleted")]
        calls := calls
        spawned := [] }

/-- Handler of `GET /list/rooms`. -/
def getListRooms (w : World) : Run :=
  let rooms := listRooms w
  { reply := .json fiber.StatusOK [("rooms", .rooms rooms.1)], calls := rooms.2, spawned := [] }

/-- A request to `POST /get/token` seen from outside the handler: the handler's run, and
the run of every goroutine it started with `go noxJoinRoom(RoomID)`. -/
structure Served where
  run : Run
  goroutines : List (GoroutineEnd × List Call)

/-- Serving `POST /get/token`: the handler runs, and each goroutine it started runs
`noxJoinRoom` on its own. -/
def servePostGetToken (cfg : Config) (w : World) (bind : Except GoError JoinRoomRequest) :
    Served :=
  let run := postGetToken cfg w bind
  { run := run, goroutines := run.spawned.map (noxJoinRoom cfg w) }

/-- What the caller of a request is left with: the reply of the handler, or no response
because the process ended on the panic `e` first. -/
inductive Delivery where
  | reply (r : Reply)
  | processEnded (e : GoError)
  deriving DecidableEq, Repr

/-- The panics raised by the goroutines of a served request. -/
def Served.panics (s : Served) : List GoError :=
  s.goroutines.filterMap (fun g => match g.1 with
    | .panicked e => some e
    | .returned => none)

/-- Everything the caller of a served request can be left with.  The goroutine started by
`go noxJoinRoom(RoomID)` runs alongside the rest of the handler and the writing of its
reply, and `main.go` recovers from no panic: either the reply is written, or a goroutine's
panic ends the process before that. -/
def Served.outcomes (s : Served) : List Delivery :=
  .reply s.run.reply :: s.panics.map .processEnded

/-- Keys of a `fiber.Map`. -/
def fiber.Map.keys (m : fiber.Map) : List String := m.map Prod.fst

/-- Number of room-create calls in a list of calls. -/
def countCreateRoom (cs : List Call) : Nat :=
  cs.countP (fun c => match c with | .CreateRoom _ => true | _ => false)

/-- Number of token-issuance calls in a list of calls. -/
def countToJWT (cs : List Call) : Nat :=
  cs.countP (fun c => match c with | .ToJWT _ => true | _ => false)

/-- Number of room-delete calls in a list of calls. -/
def countDeleteRoom (cs : List Call) : Nat :=
  cs.countP (fun c => match c with | .DeleteRoom _ => true | _ => false)

/-- Number of room-list calls in a list of calls. -/
def countListRooms (cs : List Call) : Nat :=
  cs.countP (fun c => match c with | .ListRooms => true | _ => false)

/-! ## Notions used to state the properties of `createRoomId`

These are not part of the program: they name what the printed digits stand for and how far
apart two clock readings are. -/

/-- The number a digit byte stands for. -/
def charValue (c : Char) : Nat := c.toNat - '0'.toNat

/-- The number a string of decimal digits stands for. -/
def decimalValue (cs : List Char) : Nat :=
  cs.foldl (fun n c => 10 * n + charValue c) 0

/-- The digits of `u`, most significant first, as numbers. -/
def digitList (u : Nat) : List Nat :=
  if u = 0 then [0] else (Nat.digits 10 u).reverse

/-- Days from 1 January of `absoluteZeroYear` to 1 January of the year `y` years later. -/
def daysBeforeYear (y : Nat) : Nat := 365 * y + y / 4 - y / 100 + y / 400

/-- Zero-based day of the year of the calendar date `month`/`day`. -/
def yearDayOf (leap : Bool) (month day : Nat) : Nat :=
  daysBefore.getD (month - 1) 0 + (day - 1) + (if leap && decide (month > 2) then 1 else 0)

/-- Go `int64` range of the Unix second and range of the nanosecond field. -/
def Time.wellFormed (t : Time) : Prop :=
  -(2 ^ 63) ≤ t.unixSec ∧ t.unixSec < 2 ^ 63 ∧ t.nsec < 1000000000

instance (t : Time) : Decidable t.wellFormed := by
  unfold Time.wellFormed
  infer_instance

/-- Go `t.UnixNano()` without wrap-around: nanoseconds since the Unix epoch. -/
def Time.unixNano (t : Time) : Int := t.unixSec * 1000000000 + t.nsec

/-- Nanoseconds between two clock readings, whichever came first (the size of Go's
`t₁.Sub(t₂)`). -/
def Time.apart (t₁ t₂ : Time) : Nat := (t₁.unixNano - t₂.unixNano).natAbs

/-- Go `time.Second`, in nanoseconds. -/
def time.Second : Nat := 1000 * (1000 * 1000)

/-- The six numbers `Format` prints for the layout, each with the width of its chunk: year,
month, day, hour, minute, second of the local wall-clock time. -/
def Time.fields (t : Time) : List (Int × Nat) :=
  [((absDate t.abs).1, 4), ((absDate t.abs).2.1, 2), ((absDate t.abs).2.2.1, 2),
   ((absClock t.abs).1, 2), ((absClock t.abs).2.1, 2), ((absClock t.abs).2.2, 2)]

/-- The bytes `appendInt` writes for a field. -/
def fieldText (f : Int × Nat) : List Char := (appendInt "" f.1 f.2).data

/-! ## Concrete collaborators used to exercise the theorems -/

/-- A configuration with all three values present. -/
def sampleConfig : Config :=
  { apiKey := "key", apiSecret := "secret", HOST := "wss://rooms.example" }

/-- A world in which every collaborator succeeds, read at 2024-11-03 05:30:00 UTC by a
process four hours west of UTC. -/
def sampleWorld : World :=
  { now := { unixSec := 1730611800, nsec := 5, offset := -14400 }
    CreateRoom := fun req =>
      (some { Sid := "RM_1", Name := req.Name, EmptyTimeout := req.EmptyTimeout,
              MaxParticipants := req.MaxParticipants }, none)
    DeleteRoom := fun _ => none
    ListRooms := (some { Rooms := [{ Sid := "RM_1", Name := "a", EmptyTimeout := 600,
                                     MaxParticipants := 10 }] }, none)
    ToJWT := fun tok => ("jwt:" ++ tok.identity ++ ":" ++ tok.name, none)
    ConnectToRoom := fun _ info => (some info.RoomName, none) }

/-- A world whose token signer fails. -/
def signFailWorld : World :=
  { sampleWorld with ToJWT := fun _ => ("", some "api key and secret are required") }

/-- A world whose session join fails; everything else is as in `sampleWorld`. -/
def joinFailWorld : World :=
  { sampleWorld with ConnectToRoom := fun _ _ => (none, some "could not connect") }

/-- A world whose room service cannot create rooms. -/
def createFailWorld : World :=
  { sampleWorld with CreateRoom := fun _ => (none, some "twirp error unavailable") }

/-- The access token `getToken` builds for room `room` and display name `user`. -/
def issuedToken (cfg : Config) (room user : String) : auth.AccessToken :=
  { apiKey := cfg.apiKey
    secret := cfg.apiSecret
    grant := some { RoomJoin := true, Room := room, CanPublish := some true,
                    CanSubscribe := some true }
    identity := "human"
    name := user
    validFor := 3600 * 1000000000 }

/-- The create request `createRoom` sends for room `room`. -/
def sentCreate (room : String) : livekit.CreateRoomRequest :=
  { Name := room, EmptyTimeout := 600, MaxParticipants := 10 }

/-! ## Theorems

### The timestamp printed by `Format` -/

theorem charValue_digitChar : ∀ d < 10, charValue (digitChar d) = d := by decide

theorem digitChar_isDigit : ∀ d < 10, (digitChar d).isDigit = true := by decide

theorem digitChar_utf8Size : ∀ d < 10, (digitChar d).utf8Size = 1 := by decide

theorem digitChar_ne_minus : ∀ d < 10, digitChar d ≠ '-' := by decide

theorem decimalLoop_eq (fuel : Nat) : ∀ (u : Nat) (acc : List Char), u ≤ fuel → 0 < u →
    decimalLoop fuel u acc = ((Nat.digits 10 u).reverse.map digitChar) ++ acc := by
  induction fuel with
  | zero => intro u acc h h'; omega
  | succ fuel ih =>
    intro u acc h h'
    rw [decimalLoop]
    split
    · rename_i hu
      rw [ih (u / 10) _ (by omega) (by omega)]
      rw [Nat.digits_def' (by norm_num) h']
      have : u - u / 10 * 10 = u % 10 := by omega
      simp [this]
    · rename_i hu
      rw [Nat.digits_of_lt 10 u (by omega) (by omega)]
      simp

theorem decimal_eq (u : Nat) : decimal u = (digitList u).map digitChar := by
  unfold decimal digitList
  split
  · rename_i h
    subst h
    rfl
  · rename_i h
    rw [decimalLoop_eq u u [] (le_refl _) (by omega)]
    simp

theorem digitList_lt (u : Nat) : ∀ d ∈ digitList u, d < 10 := by
  intro d hd
  unfold digitList at hd
  split at hd
  · simp at hd; omega
  · rw [List.mem_reverse] at hd
    exact Nat.digits_lt_base (by norm_num) hd

theorem digitList_length_pos (u : Nat) : 0 < (digitList u).length := by
  unfold digitList
  split
  · simp
  · rename_i h
    rw [List.length_reverse]
    exact List.length_pos.mpr (Nat.digits_ne_nil_iff_ne_zero.mpr h)

theorem digitList_length_le (u k : Nat) (hk : 0 < k) (hu : u < 10 ^ k) :
    (digitList u).length ≤ k := by
  unfold digitList
  split
  · simpa using hk
  · rw [List.length_reverse]
    rename_i h
    have h1 := Nat.base_pow_length_digits_le 10 u (by norm_num) h
    have h2 : 10 ^ (Nat.digits 10 u).length < 10 ^ (k + 1) := by
      rw [pow_succ]
      omega
    exact Nat.lt_succ_iff.mp ((Nat.pow_lt_pow_iff_right (by norm_num)).mp h2)

theorem ofDigits_digitList (u : Nat) : Nat.ofDigits 10 (digitList u).reverse = u := by
  unfold digitList
  split
  · rename_i h
    subst h
    rfl
  · rw [List.reverse_reverse, Nat.ofDigits_digits]

theorem decimalValue_eq (cs : List Char) :
    decimalValue cs = Nat.ofDigits 10 (cs.map charValue).reverse := by
  unfold decimalValue
  induction cs using List.reverseRecOn with
  | nil => rfl
  | append_singleton cs c ih =>
    rw [List.foldl_append, ih]
    simp [Nat.ofDigits_cons]
    omega

theorem map_charValue_digitChar (ds : List Nat) (h : ∀ d ∈ ds, d < 10) :
    (ds.map digitChar).map charValue = ds := by
  induction ds with
  | nil => rfl
  | cons d ds ih =>
    simp only [List.map_cons, List.map_map] at *
    rw [charValue_digitChar d (h d (List.mem_cons_self _ _))]
    rw [ih (fun x hx => h x (List.mem_cons_of_mem _ hx))]

/-- Reading the digits `appendInt` writes gives the number back. -/
theorem decimalValue_decimal (u : Nat) : decimalValue (decimal u) = u := by
  rw [decimalValue_eq, decimal_eq, map_charValue_digitChar _ (digitList_lt u),
    ofDigits_digitList]

theorem decimalValue_replicate_zero (k : Nat) (cs : List Char) :
    decimalValue (List.replicate k '0' ++ cs) = decimalValue cs := by
  unfold decimalValue
  rw [List.foldl_append]
  congr 1
  induction k with
  | zero => rfl
  | succ k ih =>
    rw [List.replicate_succ', List.foldl_append, ih]
    rfl

/-! ### `appendInt` -/

theorem appendInt_data (b : String) (x : Int) (w : Nat) :
    (appendInt b x w).data = b.data ++ (appendInt "" x w).data := by
  simp [appendInt]

theorem appendInt_nonneg (x : Int) (w : Nat) (hx : 0 ≤ x) :
    (appendInt "" x w).data
      = List.replicate (w - (decimal x.natAbs).length) '0' ++ decimal x.natAbs := by
  have : ¬ x < 0 := by omega
  simp [appendInt, this]

theorem appendInt_neg (x : Int) (w : Nat) (hx : x < 0) :
    (appendInt "" x w).data
      = '-' :: (List.replicate (w - (decimal x.natAbs).length) '0' ++ decimal x.natAbs) := by
  simp [appendInt, hx]

theorem decimal_length_pos (u : Nat) : 0 < (decimal u).length := by
  rw [decimal_eq, List.length_map]
  exact digitList_length_pos u

theorem decimal_length_le (u k : Nat) (hk : 0 < k) (hu : u < 10 ^ k) :
    (decimal u).length ≤ k := by
  rw [decimal_eq, List.length_map]
  exact digitList_length_le u k hk hu

theorem mem_decimal {u : Nat} {c : Char} (hc : c ∈ decimal u) : ∃ d < 10, c = digitChar d := by
  rw [decimal_eq, List.mem_map] at hc
  obtain ⟨d, hd, rfl⟩ := hc
  exact ⟨d, digitList_lt u d hd, rfl⟩

theorem mem_padded {u k : Nat} {c : Char} (hc : c ∈ List.replicate k '0' ++ decimal u) :
    ∃ d < 10, c = digitChar d := by
  rw [List.mem_append] at hc
  rcases hc with hc | hc
  · exact ⟨0, by norm_num, (List.mem_replicate.mp hc).2⟩
  · exact mem_decimal hc

/-- A non-negative number below `10 ^ w` is written by `appendInt` in exactly `w` bytes. -/
theorem appendInt_length (x : Int) (w : Nat) (hw : 0 < w) (hx : 0 ≤ x) (hlt : x < 10 ^ w) :
    (appendInt "" x w).data.length = w := by
  rw [appendInt_nonneg x w hx, List.length_append, List.length_replicate]
  have := decimal_length_le x.natAbs w hw (by zify; rw [abs_of_nonneg hx]; exact hlt)
  omega

theorem appendInt_isDigit (x : Int) (w : Nat) (hx : 0 ≤ x) :
    ∀ c ∈ (appendInt "" x w).data, c.isDigit = true := by
  intro c hc
  rw [appendInt_nonneg x w hx] at hc
  obtain ⟨d, hd, rfl⟩ := mem_padded hc
  exact digitChar_isDigit d hd

theorem utf8Len_eq_length (cs : List Char) (h : ∀ c ∈ cs, c.utf8Size = 1) :
    String.utf8Len cs = cs.length := by
  induction cs with
  | nil => rfl
  | cons c cs ih =>
    rw [String.utf8Len_cons, ih (fun x hx => h x (List.mem_cons_of_mem _ hx)),
      h c (List.mem_cons_self _ _), List.length_cons]

theorem appendInt_utf8Len (x : Int) (w : Nat) (hx : 0 ≤ x) :
    String.utf8Len (appendInt "" x w).data = (appendInt "" x w).data.length := by
  apply utf8Len_eq_length
  intro c hc
  rw [appendInt_nonneg x w hx] at hc
  obtain ⟨d, hd, rfl⟩ := mem_padded hc
  exact digitChar_utf8Size d hd

/-- Reading back what `appendInt` wrote for a non-negative number gives the number. -/
theorem decimalValue_appendInt (x : Int) (w : Nat) (hx : 0 ≤ x) :
    (decimalValue (appendInt "" x w).data : Int) = x := by
  rw [appendInt_nonneg x w hx, decimalValue_replicate_zero, decimalValue_decimal]
  omega

/-- The text `appendInt` writes determines the number. -/
theorem appendInt_injective (x y : Int) (w : Nat)
    (h : (appendInt "" x w).data = (appendInt "" y w).data) : x = y := by
  have key : ∀ a b : Int, a < 0 → 0 ≤ b →
      (appendInt "" a w).data ≠ (appendInt "" b w).data := by
    intro a b ha hb hab
    rw [appendInt_neg a w ha, appendInt_nonneg b w hb] at hab
    have hmem : '-' ∈ List.replicate (w - (decimal b.natAbs).length) '0' ++ decimal b.natAbs := by
      rw [← hab]
      exact List.mem_cons_self _ _
    obtain ⟨d, hd, hd'⟩ := mem_padded hmem
    exact digitChar_ne_minus d hd hd'.symm
  rcases lt_or_le x 0 with hx | hx <;> rcases lt_or_le y 0 with hy | hy
  · rw [appendInt_neg x w hx, appendInt_neg y w hy] at h
    have h' := congrArg decimalValue (List.cons.inj h).2
    rw [decimalValue_replicate_zero, decimalValue_replicate_zero, decimalValue_decimal,
      decimalValue_decimal] at h'
    omega
  · exact absurd h (key x y hx hy)
  · exact absurd h.symm (key y x hy hx)
  · have h' := congrArg decimalValue h
    rw [appendInt_nonneg x w hx, appendInt_nonneg y w hy, decimalValue_replicate_zero,
      decimalValue_replicate_zero, decimalValue_decimal, decimalValue_decimal] at h'
    omega

/-! ### The calendar fields -/

theorem cut100 (r : Nat) (hr : r < 146097) :
    r / 36524 - r / 36524 / 4 ≤ 3 ∧ 36524 * (r / 36524 - r / 36524 / 4) ≤ r ∧
      r - 36524 * (r / 36524 - r / 36524 / 4) ≤ 36524 ∧
      (r - 36524 * (r / 36524 - r / 36524 / 4) = 36524 → r / 36524 - r / 36524 / 4 = 3) := by
  omega

theorem cut4 (r : Nat) (hr : r ≤ 36524) :
    r / 1461 ≤ 24 ∧ 1461 * (r / 1461) ≤ r ∧ r - 1461 * (r / 1461) ≤ 1460 ∧
      (r = 36524 → r / 1461 = 24 ∧ r - 1461 * (r / 1461) = 1460) := by
  omega

theorem cut1 (r : Nat) (hr : r ≤ 1460) :
    r / 365 - r / 365 / 4 ≤ 3 ∧ 365 * (r / 365 - r / 365 / 4) ≤ r ∧
      r - 365 * (r / 365 - r / 365 / 4) ≤ 365 ∧
      (r - 365 * (r / 365 - r / 365 / 4) = 365 → r / 365 - r / 365 / 4 = 3 ∧ r = 1460) := by
  omega

/-- The year count of `absYearDay` splits into 400-, 100-, 4- and 1-year cycles, the day
count is the days of those cycles plus the day of the year, and day 365 occurs only in the
last year of a 4-year cycle that is not the last of a century other than the fourth. -/
theorem absYearDay_cycles (abs : Nat) :
    ∃ q a b c : Nat, a ≤ 3 ∧ b ≤ 24 ∧ c ≤ 3 ∧
      (absYearDay abs).1 = 400 * q + 100 * a + 4 * b + c ∧
      abs / 86400 = 146097 * q + 36524 * a + 1461 * b + 365 * c + (absYearDay abs).2 ∧
      (absYearDay abs).2 ≤ 365 ∧
      ((absYearDay abs).2 = 365 → c = 3 ∧ (b = 24 → a = 3)) := by
  simp only [absYearDay, secondsPerDay, secondsPerHour, secondsPerMinute, daysPer400Years,
    daysPer100Years, daysPer4Years, Nat.reduceMul, Nat.reduceAdd]
  generalize abs / 86400 = d0
  have h1 := Nat.div_add_mod d0 146097
  have h1' := Nat.mod_lt d0 (show 146097 > 0 by norm_num)
  generalize d0 / 146097 = q at *
  have hd1 : d0 - 146097 * q = d0 % 146097 := by omega
  rw [hd1]
  generalize d0 % 146097 = r at *
  obtain ⟨ha, ha1, ha2, ha3⟩ := cut100 r h1'
  generalize r / 36524 - r / 36524 / 4 = a at *
  obtain ⟨hb, hb1, hb2, hb3⟩ := cut4 (r - 36524 * a) ha2
  generalize hr2 : r - 36524 * a = r2 at *
  generalize r2 / 1461 = b at *
  obtain ⟨hc, hc1, hc2, hc3⟩ := cut1 (r2 - 1461 * b) hb2
  generalize hr3 : r2 - 1461 * b = r3 at *
  generalize r3 / 365 - r3 / 365 / 4 = c at *
  refine ⟨q, a, b, c, ha, hb, hc, rfl, by omega, hc2, ?_⟩
  intro h
  obtain ⟨h3, h4⟩ := hc3 h
  refine ⟨h3, fun hb24 => ?_⟩
  apply ha3
  omega

theorem isLeap_add_zeroYear (y : Nat) :
    isLeap ((y : Int) + absoluteZeroYear)
      = decide ((y + 1) % 4 = 0 ∧ ((y + 1) % 100 ≠ 0 ∨ (y + 1) % 400 = 0)) := by
  unfold isLeap absoluteZeroYear
  rw [Bool.eq_iff_iff]
  simp only [Bool.and_eq_true, Bool.or_eq_true, beq_iff_eq, bne_iff_ne, decide_eq_true_eq]
  omega

theorem daysBeforeYear_cycles (q a b c : Nat) (ha : a ≤ 3) (hb : b ≤ 24) (hc : c ≤ 3) :
    daysBeforeYear (400 * q + 100 * a + 4 * b + c)
      = 146097 * q + 36524 * a + 1461 * b + 365 * c := by
  unfold daysBeforeYear
  omega

theorem leap_of_cycles (q a b c : Nat) (hb : b ≤ 24) (hc : c = 3) (hba : b = 24 → a = 3) :
    (400 * q + 100 * a + 4 * b + c + 1) % 4 = 0
      ∧ ((400 * q + 100 * a + 4 * b + c + 1) % 100 ≠ 0
          ∨ (400 * q + 100 * a + 4 * b + c + 1) % 400 = 0) := by
  subst hc
  by_cases hb24 : b = 24
  · have := hba hb24
    subst this hb24
    omega
  · omega

/-- The day count is recovered from the year count and the day of the year, and day 365
exists only in leap years. -/
theorem absYearDay_spec (abs : Nat) :
    abs / 86400 = daysBeforeYear (absYearDay abs).1 + (absYearDay abs).2
      ∧ ((absYearDay abs).2 < 365
          ∨ ((absYearDay abs).2 = 365
              ∧ isLeap (((absYearDay abs).1 : Int) + absoluteZeroYear) = true)) := by
  obtain ⟨q, a, b, c, ha, hb, hc, hy, hd, hle, h365⟩ := absYearDay_cycles abs
  rw [isLeap_add_zeroYear]
  generalize (absYearDay abs).1 = y at *
  generalize (absYearDay abs).2 = yd at *
  subst hy
  rw [daysBeforeYear_cycles q a b c ha hb hc]
  refine ⟨hd, ?_⟩
  rcases Nat.lt_or_ge yd 365 with h | h
  · exact Or.inl h
  · right
    have h' : yd = 365 := by omega
    obtain ⟨hc3, hba⟩ := h365 h'
    exact ⟨h', decide_eq_true (leap_of_cycles q a b c hb hc3 hba)⟩

theorem monthDay_common : ∀ yday < 365,
    1 ≤ (monthDay false yday).1 ∧ (monthDay false yday).1 ≤ 12 ∧
    1 ≤ (monthDay false yday).2 ∧ (monthDay false yday).2 ≤ 31 ∧
    yearDayOf false (monthDay false yday).1 (monthDay false yday).2 = yday := by
  decide

theorem monthDay_leap : ∀ yday < 366,
    1 ≤ (monthDay true yday).1 ∧ (monthDay true yday).1 ≤ 12 ∧
    1 ≤ (monthDay true yday).2 ∧ (monthDay true yday).2 ≤ 31 ∧
    yearDayOf true (monthDay true yday).1 (monthDay true yday).2 = yday := by
  decide

/-- On the days a year has, `monthDay` gives a month in 1..12 and a day in 1..31 from
which the day of the year is recovered. -/
theorem monthDay_spec (leap : Bool) (yday : Nat)
    (h : yday < 365 ∨ (yday = 365 ∧ leap = true)) :
    1 ≤ (monthDay leap yday).1 ∧ (monthDay leap yday).1 ≤ 12 ∧
    1 ≤ (monthDay leap yday).2 ∧ (monthDay leap yday).2 ≤ 31 ∧
    yearDayOf leap (monthDay leap yday).1 (monthDay leap yday).2 = yday := by
  cases leap with
  | false =>
    rcases h with h | ⟨_, h⟩
    · exact monthDay_common yday h
    · cases h
  | true =>
    refine monthDay_leap yday ?_
    rcases h with h | ⟨h, _⟩ <;> omega

/-- The fields of `absDate` are a month in 1..12 and a day in 1..31. -/
theorem absDate_bounds (abs : Nat) :
    1 ≤ (absDate abs).2.1 ∧ (absDate abs).2.1 ≤ 12 ∧
      1 ≤ (absDate abs).2.2.1 ∧ (absDate abs).2.2.1 ≤ 31 := by
  obtain ⟨h1, h2, h3, h4, _⟩ := monthDay_spec _ _ (absYearDay_spec abs).2
  exact ⟨h1, h2, h3, h4⟩

/-- The year, month and day of `absDate` determine the day count. -/
theorem absDate_days_eq (a b : Nat) (hy : (absDate a).1 = (absDate b).1)
    (hm : (absDate a).2.1 = (absDate b).2.1) (hd : (absDate a).2.2.1 = (absDate b).2.2.1) :
    a / 86400 = b / 86400 := by
  obtain ⟨ha1, ha2⟩ := absYearDay_spec a
  obtain ⟨hb1, hb2⟩ := absYearDay_spec b
  have hya := (monthDay_spec _ _ ha2).2.2.2.2
  have hyb := (monthDay_spec _ _ hb2).2.2.2.2
  simp only [absDate] at hy hm hd
  have hy' : (absYearDay a).1 = (absYearDay b).1 := by
    have := add_right_cancel hy
    exact_mod_cast this
  rw [hy'] at hya hm hd ha1
  rw [hm, hd, hyb] at hya
  rw [ha1, hb1, hya]

/-- The fields of `absClock` are an hour below 24, a minute and a second below 60, and
they determine the second of the day. -/
theorem absClock_spec (abs : Nat) :
    (absClock abs).1 < 24 ∧ (absClock abs).2.1 < 60 ∧ (absClock abs).2.2 < 60
      ∧ abs % 86400 = 3600 * (absClock abs).1 + 60 * (absClock abs).2.1 + (absClock abs).2.2 := by
  simp only [absClock, secondsPerDay, secondsPerHour, secondsPerMinute, Nat.reduceMul]
  omega

/-- The six fields that `Format` prints determine the absolute second. -/
theorem abs_eq_of_fields (a b : Nat) (hy : (absDate a).1 = (absDate b).1)
    (hm : (absDate a).2.1 = (absDate b).2.1) (hd : (absDate a).2.2.1 = (absDate b).2.2.1)
    (hc : absClock a = absClock b) : a = b := by
  have h1 := absDate_days_eq a b hy hm hd
  have h2 := (absClock_spec a).2.2.2
  have h3 := (absClock_spec b).2.2.2
  rw [hc] at h2
  have := Nat.div_add_mod a 86400
  have := Nat.div_add_mod b 86400
  omega

/-- Two readings with the same offset and the same absolute second are readings of the
same Unix second. -/
theorem abs_injective (t₁ t₂ : Time) (h₁ : t₁.wellFormed) (h₂ : t₂.wellFormed)
    (ho : t₁.offset = t₂.offset) (h : t₁.abs = t₂.abs) : t₁.unixSec = t₂.unixSec := by
  unfold Time.wellFormed at h₁ h₂
  unfold Time.abs unixToInternal internalToAbsolute at h
  rw [ho] at h
  have h' := congrArg (fun n : Nat => (n : Int)) h
  simp only at h'
  rw [Int.toNat_of_nonneg (Int.emod_nonneg _ (by norm_num)),
    Int.toNat_of_nonneg (Int.emod_nonneg _ (by norm_num))] at h'
  omega

/-! ### `Format` and `createRoomId` -/

theorem appendChunk_data (t : Time) (b : String) (c : StdChunk) :
    (appendChunk t b c).data = b.data ++ (appendChunk t "" c).data := by
  cases c <;> exact appendInt_data _ _ _

/-- The formatted time is the six fields one after the other: year (at least four
places), then month, day, hour, minute and second. -/
theorem Format_data (t : Time) :
    t.Format.data
      = (appendInt "" (absDate t.abs).1 4).data
        ++ ((appendInt "" (absDate t.abs).2.1 2).data
        ++ ((appendInt "" (absDate t.abs).2.2.1 2).data
        ++ ((appendInt "" (absClock t.abs).1 2).data
        ++ ((appendInt "" (absClock t.abs).2.1 2).data
        ++ (appendInt "" (absClock t.abs).2.2 2).data)))) := by
  simp only [Time.Format, layout20060102150405, List.foldl]
  rw [appendChunk_data, appendChunk_data t (appendChunk _ _ _), appendChunk_data t (appendChunk _ _ _),
    appendChunk_data t (appendChunk _ _ _), appendChunk_data t (appendChunk _ _ _)]
  simp only [appendChunk, List.append_assoc]

theorem createRoomId_data (t : Time) (u : String) :
    (createRoomId t u).data = u.data ++ '-' :: t.Format.data := by
  simp [createRoomId]

theorem twoDigit_length (n : Nat) (hn : n < 100) : (appendInt "" (n : Int) 2).data.length = 2 :=
  appendInt_length n 2 (by norm_num) (by omega) (by norm_cast)

theorem natField_injective (m n w : Nat)
    (h : (appendInt "" (m : Int) w).data = (appendInt "" (n : Int) w).data) : m = n := by
  exact_mod_cast appendInt_injective m n w h

/-- The formatted time determines the absolute second. -/
theorem Format_injective (t₁ t₂ : Time) (h : t₁.Format = t₂.Format) : t₁.abs = t₂.abs := by
  have hd := congrArg String.data h
  rw [Format_data, Format_data] at hd
  obtain ⟨_, hmo1, _, hda1⟩ := absDate_bounds t₁.abs
  obtain ⟨_, hmo2, _, hda2⟩ := absDate_bounds t₂.abs
  obtain ⟨hh1, hmi1, hs1, _⟩ := absClock_spec t₁.abs
  obtain ⟨hh2, hmi2, hs2, _⟩ := absClock_spec t₂.abs
  have lmo1 := twoDigit_length _ (show (absDate t₁.abs).2.1 < 100 by omega)
  have lmo2 := twoDigit_length _ (show (absDate t₂.abs).2.1 < 100 by omega)
  have lda1 := twoDigit_length _ (show (absDate t₁.abs).2.2.1 < 100 by omega)
  have lda2 := twoDigit_length _ (show (absDate t₂.abs).2.2.1 < 100 by omega)
  have lh1 := twoDigit_length _ (show (absClock t₁.abs).1 < 100 by omega)
  have lh2 := twoDigit_length _ (show (absClock t₂.abs).1 < 100 by omega)
  have lmi1 := twoDigit_length _ (show (absClock t₁.abs).2.1 < 100 by omega)
  have lmi2 := twoDigit_length _ (show (absClock t₂.abs).2.1 < 100 by omega)
  have ls1 := twoDigit_length _ (show (absClock t₁.abs).2.2 < 100 by omega)
  have ls2 := twoDigit_length _ (show (absClock t₂.abs).2.2 < 100 by omega)
  obtain ⟨hY, hd⟩ := List.append_inj' hd (by simp only [List.length_append]; omega)
  obtain ⟨hM, hd⟩ := List.append_inj hd (by omega)
  obtain ⟨hD, hd⟩ := List.append_inj hd (by omega)
  obtain ⟨hH, hd⟩ := List.append_inj hd (by omega)
  obtain ⟨hMi, hS⟩ := List.append_inj hd (by omega)
  apply abs_eq_of_fields
  · exact appendInt_injective _ _ 4 hY
  · exact natField_injective _ _ 2 hM
  · exact natField_injective _ _ 2 hD
  · rw [Prod.ext_iff, Prod.ext_iff]
    exact ⟨natField_injective _ _ 2 hH, natField_injective _ _ 2 hMi, natField_injective _ _ 2 hS⟩

theorem createRoomId_injective (u : String) (t₁ t₂ : Time)
    (h : createRoomId t₁ u = createRoomId t₂ u) : t₁.Format = t₂.Format := by
  have hd := congrArg String.data h
  rw [createRoomId_data, createRoomId_data] at hd
  have := List.append_cancel_left hd
  exact String.ext (List.cons.inj this).2

theorem Format_fields (t : Time) : t.Format.data = (t.fields.map fieldText).flatten := by
  rw [Format_data]
  simp [Time.fields, fieldText]

theorem fields_spec (t : Time) (hlo : 0 ≤ (absDate t.abs).1) (hhi : (absDate t.abs).1 ≤ 9999) :
    ∀ f ∈ t.fields, 0 ≤ f.1 ∧ (fieldText f).length = f.2 := by
  obtain ⟨_, hmo, _, hda⟩ := absDate_bounds t.abs
  obtain ⟨hh, hmi, hs, _⟩ := absClock_spec t.abs
  intro f hf
  simp only [Time.fields, List.mem_cons, List.mem_singleton, List.not_mem_nil, or_false] at hf
  rcases hf with rfl | rfl | rfl | rfl | rfl | rfl
  · exact ⟨hlo, appendInt_length _ 4 (by norm_num) hlo (by norm_num; omega)⟩
  · exact ⟨by positivity, twoDigit_length _ (by omega)⟩
  · exact ⟨by positivity, twoDigit_length _ (by omega)⟩
  · exact ⟨by positivity, twoDigit_length _ (by omega)⟩
  · exact ⟨by positivity, twoDigit_length _ (by omega)⟩
  · exact ⟨by positivity, twoDigit_length _ (by omega)⟩

/-- C4 (amended): for every user identifier `u` and every clock reading `t` whose local
calendar year is between 0 and 9999, `createRoomId(u)` at `t` is `u`, then "-", then the
year, month, day, hour, minute and second of `t` written in 4, 2, 2, 2, 2 and 2 decimal
digits: 14 digits in all, so that the result is 15 longer than `u` (in characters and in
bytes) and has `u` as a prefix. -/
theorem createRoomId_shape (u : String) (t : Time) (hlo : 0 ≤ (absDate t.abs).1)
    (hhi : (absDate t.abs).1 ≤ 9999) :
    createRoomId t u = u ++ "-" ++ t.Format
      ∧ t.Format.data = (t.fields.map fieldText).flatten
      ∧ t.fields.map Prod.snd = [4, 2, 2, 2, 2, 2]
      ∧ (∀ f ∈ t.fields, (fieldText f).length = f.2 ∧ (∀ c ∈ fieldText f, c.isDigit = true)
            ∧ (decimalValue (fieldText f) : Int) = f.1)
      ∧ t.Format.length = 14
      ∧ (∀ c ∈ t.Format.data, c.isDigit = true)
      ∧ (createRoomId t u).length = u.length + 15
      ∧ (createRoomId t u).utf8ByteSize = u.utf8ByteSize + 15
      ∧ u.data <+: (createRoomId t u).data := by
  have hf := fields_spec t hlo hhi
  have hfield : ∀ f ∈ t.fields, (fieldText f).length = f.2
      ∧ (∀ c ∈ fieldText f, c.isDigit = true) ∧ (decimalValue (fieldText f) : Int) = f.1 :=
    fun f hm => ⟨(hf f hm).2, appendInt_isDigit f.1 f.2 (hf f hm).1,
      decimalValue_appendInt f.1 f.2 (hf f hm).1⟩
  have hsize : ∀ f ∈ t.fields, String.utf8Len (fieldText f) = f.2 := fun f hm =>
    (appendInt_utf8Len f.1 f.2 (hf f hm).1).trans (hf f hm).2
  have hdigit : ∀ c ∈ t.Format.data, c.isDigit = true := by
    intro c hc
    rw [Format_fields, List.mem_flatten] at hc
    obtain ⟨l, hl, hcl⟩ := hc
    obtain ⟨f, hm, rfl⟩ := List.mem_map.mp hl
    exact (hfield f hm).2.1 c hcl
  have hlen : t.Format.data.length = 14 := by
    rw [Format_fields]
    simp only [Time.fields, List.mem_cons, List.mem_singleton, List.not_mem_nil, or_false,
      forall_eq_or_imp, forall_eq] at hf
    simp only [Time.fields, List.map_cons, List.map_nil, List.flatten_cons, List.flatten_nil,
      List.length_append, List.length_nil]
    omega
  have hbytes : String.utf8Len t.Format.data = 14 := by
    rw [Format_fields]
    simp only [Time.fields, List.mem_cons, List.mem_singleton, List.not_mem_nil, or_false,
      forall_eq_or_imp, forall_eq] at hsize
    simp only [Time.fields, List.map_cons, List.map_nil, List.flatten_cons, List.flatten_nil,
      String.utf8Len_append, String.utf8Len_nil]
    omega
  refine ⟨rfl, Format_fields t, rfl, hfield, hlen, hdigit, ?_, ?_, ?_⟩
  · show (createRoomId t u).data.length = u.data.length + 15
    rw [createRoomId_data, List.length_append, List.length_cons, hlen]
  · show String.utf8Len (createRoomId t u).data = String.utf8Len u.data + 15
    rw [createRoomId_data, String.utf8Len_append, String.utf8Len_cons, hbytes]
    rfl
  · rw [createRoomId_data]
    exact List.prefix_append _ _

/-- C5 (amended): for every user identifier `u`, two clock readings whose Unix seconds fit
Go's `int64`, taken with the same offset from UTC and at least one second apart, give
different room identifiers. -/
theorem createRoomId_distinct (u : String) (t₁ t₂ : Time) (h₁ : t₁.wellFormed)
    (h₂ : t₂.wellFormed) (ho : t₁.offset = t₂.offset)
    (hapart : time.Second ≤ Time.apart t₁ t₂) :
    createRoomId t₁ u ≠ createRoomId t₂ u := by
  intro h
  have hs := abs_injective t₁ t₂ h₁ h₂ ho
    (Format_injective t₁ t₂ (createRoomId_injective u t₁ t₂ h))
  unfold Time.wellFormed at h₁ h₂
  unfold Time.apart Time.unixNano time.Second at hapart
  rw [hs] at hapart
  omega


/-- Counterexample to C4 as stated: at 00:00:00 UTC on 1 January of year 10000 (a reading
whose Unix second fits `int64`) the timestamp has 15 digits and the identifier is 16
longer than the user identifier. -/
theorem createRoomId_year_10000 :
    Time.wellFormed { unixSec := 253402300800, nsec := 0, offset := 0 }
      ∧ createRoomId { unixSec := 253402300800, nsec := 0, offset := 0 } "alice"
          = "alice-100000101000000"
      ∧ (Time.Format { unixSec := 253402300800, nsec := 0, offset := 0 }).length = 15
      ∧ (createRoomId { unixSec := 253402300800, nsec := 0, offset := 0 } "alice").length
          ≠ "alice".length + 15 := by
  decide

/-- Witness of the amended C4 at 2024-11-03 01:30:00 local time, user "alice". -/
theorem createRoomId_shape_witness :
    0 ≤ (absDate sampleWorld.now.abs).1
      ∧ (absDate sampleWorld.now.abs).1 ≤ 9999
      ∧ sampleWorld.now.Format.length = 14
      ∧ (createRoomId sampleWorld.now "alice").length = "alice".length + 15
      ∧ "alice".data <+: (createRoomId sampleWorld.now "alice").data :=
  ⟨by decide, by decide,
   (createRoomId_shape "alice" sampleWorld.now (by decide) (by decide)).2.2.2.2.1,
   (createRoomId_shape "alice" sampleWorld.now (by decide) (by decide)).2.2.2.2.2.2.1,
   (createRoomId_shape "alice" sampleWorld.now (by decide) (by decide)).2.2.2.2.2.2.2.2⟩

/-- Counterexample to C5 as stated: 05:30:00 UTC read four hours west of UTC and
06:30:00 UTC read five hours west of UTC (the hour repeated when daylight saving time
ends) are an hour apart and give the same identifier. -/
theorem createRoomId_collision_across_offsets :
    Time.wellFormed { unixSec := 1730611800, nsec := 0, offset := -14400 }
      ∧ Time.wellFormed { unixSec := 1730615400, nsec := 0, offset := -18000 }
      ∧ 3600 * time.Second
          ≤ Time.apart { unixSec := 1730611800, nsec := 0, offset := -14400 }
              { unixSec := 1730615400, nsec := 0, offset := -18000 }
      ∧ createRoomId { unixSec := 1730611800, nsec := 0, offset := -14400 } "alice"
          = createRoomId { unixSec := 1730615400, nsec := 0, offset := -18000 } "alice" := by
  decide

/-- Witness of the amended C5: two readings one second apart, both four hours west of
UTC. -/
theorem createRoomId_distinct_witness :
    createRoomId { unixSec := 1730611800, nsec := 0, offset := -14400 } "alice"
      ≠ createRoomId { unixSec := 1730611801, nsec := 0, offset := -14400 } "alice" :=
  createRoomId_distinct "alice" { unixSec := 1730611800, nsec := 0, offset := -14400 }
    { unixSec := 1730611801, nsec := 0, offset := -14400 } (by decide) (by decide) rfl
    (by decide)

/-! ### The route handlers -/


theorem userID_beq_false {u : String} (hu : u ≠ "") : (u == "") = false := by
  simpa using hu

theorem getToken_eq (cfg : Config) (w : World) (room user : String) :
    getToken cfg w room "human" user
      = (w.ToJWT (issuedToken cfg room user), [Call.ToJWT (issuedToken cfg room user)]) := by
  rfl

theorem createRoom_eq (w : World) (room : String) :
    createRoom w room = ((w.CreateRoom (sentCreate room)).1, [Call.CreateRoom (sentCreate room)]) := by
  rfl

/-- C1: a `POST /get/token` request with a non-empty userid `u`, read at clock `w.now`,
makes exactly one room-create call (name `createRoomId(u)`, EmptyTimeout 600,
MaxParticipants 10) followed by exactly one token-issuance call (grant RoomJoin for that
same room with CanPublish and CanSubscribe true, identity "human", display name `u`,
valid for one hour) and no other call; when the issuance succeeds the reply is the JSON
body with exactly the keys "token" (the issued token) and "room" (what the create call
returned). -/
theorem postGetToken_contract (cfg : Config) (w : World) (u : String) (hu : u ≠ "") :
    (postGetToken cfg w (.ok { UserID := u })).calls
        = [Call.CreateRoom { Name := createRoomId w.now u, EmptyTimeout := 600,
                             MaxParticipants := 10 },
           Call.ToJWT { apiKey := cfg.apiKey, secret := cfg.apiSecret,
                        grant := some { RoomJoin := true, Room := createRoomId w.now u,
                                        CanPublish := some true, CanSubscribe := some true },
                        identity := "human", name := u,
                        validFor := 3600 * 1000000000 }]
      ∧ countCreateRoom (postGetToken cfg w (.ok { UserID := u })).calls = 1
      ∧ countToJWT (postGetToken cfg w (.ok { UserID := u })).calls = 1
      ∧ ((w.ToJWT (issuedToken cfg (createRoomId w.now u) u)).2 = none →
          (postGetToken cfg w (.ok { UserID := u })).reply
              = .json 200
                  [("token", .str (w.ToJWT (issuedToken cfg (createRoomId w.now u) u)).1),
                   ("room", .room (w.CreateRoom (sentCreate (createRoomId w.now u))).1)]
            ∧ ∃ body, (postGetToken cfg w (.ok { UserID := u })).reply = .json 200 body
                ∧ fiber.Map.keys body = ["token", "room"]) := by
  have hcalls : (postGetToken cfg w (.ok { UserID := u })).calls
      = [Call.CreateRoom (sentCreate (createRoomId w.now u)),
         Call.ToJWT (issuedToken cfg (createRoomId w.now u) u)] := by
    simp only [postGetToken, userID_beq_false hu, getToken_eq, createRoom_eq]
    cases (w.ToJWT (issuedToken cfg (createRoomId w.now u) u)).2 <;> rfl
  refine ⟨hcalls, ?_, ?_, ?_⟩
  · rw [hcalls]; rfl
  · rw [hcalls]; rfl
  · intro hok
    have hreply : (postGetToken cfg w (.ok { UserID := u })).reply
        = .json 200
            [("token", .str (w.ToJWT (issuedToken cfg (createRoomId w.now u) u)).1),
             ("room", .room (w.CreateRoom (sentCreate (createRoomId w.now u))).1)] := by
      simp only [postGetToken, userID_beq_false hu, getToken_eq, createRoom_eq, hok]
      rfl
    exact ⟨hreply, _, hreply, rfl⟩

/-- C2: a `POST /get/token` request whose decoded userid is the empty string is answered
with status 400 and a JSON body whose key is "error"; the handler makes no external call
and starts no `noxJoinRoom` goroutine. -/
theorem postGetToken_empty_userid (cfg : Config) (w : World) (p : JoinRoomRequest)
    (hp : p.UserID = "") :
    (postGetToken cfg w (.ok p)).reply = .json 400 [("error", .str "userid is required")]
      ∧ (postGetToken cfg w (.ok p)).calls = []
      ∧ (postGetToken cfg w (.ok p)).spawned = []
      ∧ (servePostGetToken cfg w (.ok p)).goroutines = [] := by
  simp [servePostGetToken, postGetToken, hp, fiber.ErrBadRequest.Code]

/-- C3: a `POST /delete/room` request whose decoded roomid is the empty string is answered
with status 400 and a JSON body whose key is "error"; no delete call (indeed no call at
all) is made. -/
theorem postDeleteRoom_empty_roomid (w : World) (p : DeleteRoomRequest) (hp : p.RoomID = "") :
    (postDeleteRoom w (.ok p)).reply = .json 400 [("error", .str "roomid is required")]
      ∧ countDeleteRoom (postDeleteRoom w (.ok p)).calls = 0
      ∧ (postDeleteRoom w (.ok p)).calls = [] := by
  simp [postDeleteRoom, hp, fiber.ErrBadRequest.Code, countDeleteRoom]

/-- The goroutine started by the handler makes the session join, as identity "nox" in the
room it was given, and panics exactly when the join returns an error. -/
theorem noxJoinRoom_end (cfg : Config) (w : World) (roomID : String) :
    (noxJoinRoom cfg w roomID).2
        = [Call.ConnectToRoom cfg.HOST
            { APIKey := cfg.apiKey, APISecret := cfg.apiSecret, RoomName := roomID,
              ParticipantIdentity := "nox" }]
      ∧ (noxJoinRoom cfg w roomID).1
        = match (w.ConnectToRoom cfg.HOST
            { APIKey := cfg.apiKey, APISecret := cfg.apiSecret, RoomName := roomID,
              ParticipantIdentity := "nox" }).2 with
          | some err => .panicked err
          | none => .returned := by
  simp only [noxJoinRoom]
  cases (w.ConnectToRoom cfg.HOST
    { APIKey := cfg.apiKey, APISecret := cfg.apiSecret, RoomName := roomID,
      ParticipantIdentity := "nox" }).2 <;> exact ⟨rfl, rfl⟩

/-- Counterexample to C7 as stated: the same request against the same room service, token
issuer and clock.  When the session join succeeds the caller can only be left with the
`token`/`room` reply; when it fails the caller can also be left with no response, the
process having ended on the panic of `noxJoinRoom`. -/
theorem join_failure_reaches_caller :
    (servePostGetToken sampleConfig sampleWorld (.ok { UserID := "alice" })).outcomes
        = [.reply (.json 200
            [("token", .str "jwt:human:alice"),
             ("room", .room (some { Sid := "RM_1", Name := "alice-20241103013000",
                                    EmptyTimeout := 600, MaxParticipants := 10 }))])]
      ∧ (servePostGetToken sampleConfig joinFailWorld (.ok { UserID := "alice" })).outcomes
        = [.reply (.json 200
            [("token", .str "jwt:human:alice"),
             ("room", .room (some { Sid := "RM_1", Name := "alice-20241103013000",
                                    EmptyTimeout := 600, MaxParticipants := 10 }))]),
           .processEnded "could not connect"] := by
  decide

theorem mem_outcomes_reply (s : Served) (r : Reply) :
    Delivery.reply r ∈ s.outcomes ↔ r = s.run.reply := by
  simp [Served.outcomes]

theorem mem_outcomes_processEnded (s : Served) (e : GoError) :
    Delivery.processEnded e ∈ s.outcomes
      ↔ ∃ g ∈ s.goroutines, g.1 = GoroutineEnd.panicked e := by
  simp only [Served.outcomes, Served.panics, List.mem_cons, List.mem_map, List.mem_filterMap,
    false_or, reduceCtorEq]
  constructor
  · rintro ⟨e', ⟨g, hg, hge⟩, he⟩
    refine ⟨g, hg, ?_⟩
    cases hg1 : g.1 with
    | returned => rw [hg1] at hge; cases hge
    | panicked e'' =>
      rw [hg1] at hge
      cases hge
      cases he
      rfl
  · rintro ⟨g, hg, hge⟩
    exact ⟨e, ⟨g, hg, by rw [hge]⟩, rfl⟩

theorem noxJoinRoom_panicked_iff (cfg : Config) (w : World) (roomID : String) (e : GoError) :
    (noxJoinRoom cfg w roomID).1 = GoroutineEnd.panicked e
      ↔ (w.ConnectToRoom cfg.HOST
          { APIKey := cfg.apiKey, APISecret := cfg.apiSecret, RoomName := roomID,
            ParticipantIdentity := "nox" }).2 = some e := by
  rw [(noxJoinRoom_end cfg w roomID).2]
  cases (w.ConnectToRoom cfg.HOST
    { APIKey := cfg.apiKey, APISecret := cfg.apiSecret, RoomName := roomID,
      ParticipantIdentity := "nox" }).2 with
  | none => simp
  | some e' => simp

/-- C7 (amended): for every request to `POST /get/token` and every fixed room service,
token issuer and clock, the reply the handler builds (status and body) is the same for any
two behaviours `w.ConnectToRoom` and `join` of the worker's session join, that reply is
always one of the things the caller can be left with, and no other reply can reach the
caller.  The caller can also be left with no response, the process having ended on a
panic `e`, exactly when the handler started `noxJoinRoom` for a room whose join returned
the error `e`. -/
theorem postGetToken_reply_or_process_end (cfg : Config) (w : World)
    (bind : Except GoError JoinRoomRequest)
    (join : String → lksdk.ConnectInfo → Option String × Option GoError) :
    (servePostGetToken cfg { w with ConnectToRoom := join } bind).run
        = (servePostGetToken cfg w bind).run
      ∧ Delivery.reply (servePostGetToken cfg w bind).run.reply
          ∈ (servePostGetToken cfg { w with ConnectToRoom := join } bind).outcomes
      ∧ (∀ r, Delivery.reply r
            ∈ (servePostGetToken cfg { w with ConnectToRoom := join } bind).outcomes →
          r = (servePostGetToken cfg w bind).run.reply)
      ∧ (∀ e, Delivery.processEnded e ∈ (servePostGetToken cfg w bind).outcomes
          ↔ ∃ roomID ∈ (postGetToken cfg w bind).spawned,
              (w.ConnectToRoom cfg.HOST
                { APIKey := cfg.apiKey, APISecret := cfg.apiSecret, RoomName := roomID,
                  ParticipantIdentity := "nox" }).2 = some e) := by
  have hrun : (servePostGetToken cfg { w with ConnectToRoom := join } bind).run
      = (servePostGetToken cfg w bind).run := rfl
  refine ⟨hrun, ?_, ?_, ?_⟩
  · rw [mem_outcomes_reply, hrun]
  · intro r hr
    rw [mem_outcomes_reply, hrun] at hr
    exact hr
  · intro e
    rw [mem_outcomes_processEnded]
    simp only [servePostGetToken, List.mem_map]
    constructor
    · rintro ⟨g, ⟨roomID, hmem, rfl⟩, hg⟩
      exact ⟨roomID, hmem, (noxJoinRoom_panicked_iff cfg w roomID e).mp hg⟩
    · rintro ⟨roomID, hmem, hjoin⟩
      exact ⟨_, ⟨roomID, hmem, rfl⟩, (noxJoinRoom_panicked_iff cfg w roomID e).mpr hjoin⟩

/-- Witness of the amended C7: userid "alice" against a session join that fails, compared
with the join of `sampleWorld`. -/
theorem postGetToken_reply_or_process_end_witness :
    Delivery.reply (servePostGetToken sampleConfig joinFailWorld
          (.ok { UserID := "alice" })).run.reply
        ∈ (servePostGetToken sampleConfig
            { joinFailWorld with ConnectToRoom := sampleWorld.ConnectToRoom }
            (.ok { UserID := "alice" })).outcomes
      ∧ Delivery.processEnded "could not connect"
        ∈ (servePostGetToken sampleConfig joinFailWorld (.ok { UserID := "alice" })).outcomes :=
  ⟨(postGetToken_reply_or_process_end sampleConfig joinFailWorld (.ok { UserID := "alice" })
      sampleWorld.ConnectToRoom).2.1,
   ((postGetToken_reply_or_process_end sampleConfig joinFailWorld (.ok { UserID := "alice" })
      sampleWorld.ConnectToRoom).2.2.2 "could not connect").mpr (by decide)⟩

/-- C8: a `POST /delete/room` request with a non-empty roomid `r` makes exactly one delete
call, for room `r`, and is answered with the body `room = r`, `status = "deleted"`,
whatever the delete operation `del` of the room service returns. -/
theorem postDeleteRoom_swallows_error (w : World)
    (del : livekit.DeleteRoomRequest → Option GoError) (r : String) (hr : r ≠ "") :
    (postDeleteRoom { w with DeleteRoom := del } (.ok { RoomID := r })).calls
        = [Call.DeleteRoom { Room := r }]
      ∧ countDeleteRoom (postDeleteRoom { w with DeleteRoom := del } (.ok { RoomID := r })).calls
        = 1
      ∧ (postDeleteRoom { w with DeleteRoom := del } (.ok { RoomID := r })).reply
        = .json 200 [("room", .str r), ("status", .str "deleted")] := by
  simp only [postDeleteRoom, userID_beq_false hr]
  exact ⟨rfl, rfl, rfl⟩

/-- C9: `GET /list/rooms` makes exactly one list call and answers with a JSON body whose
only key is "rooms" and whose value is what the list call returned, unchanged. -/
theorem getListRooms_verbatim (w : World) :
    (getListRooms w).calls = [Call.ListRooms]
      ∧ countListRooms (getListRooms w).calls = 1
      ∧ (getListRooms w).reply = .json 200 [("rooms", .rooms w.ListRooms.1)] := by
  exact ⟨rfl, rfl, rfl⟩

/-- C10: for a `POST /get/token` request with non-empty userid `u`: (1) if token signing
fails with `e`, the handler returns `e`, starts no goroutine, and has already made the
room-create call, which no delete call undoes; (2) if room creation fails but token
signing succeeds, the handler still returns the `token`/`room` body and starts the worker
goroutine for the room. -/
theorem postGetToken_sign_or_create_failure (cfg : Config) (w : World) (u : String) (hu : u ≠ "") :
    (∀ e, (w.ToJWT (issuedToken cfg (createRoomId w.now u) u)).2 = some e →
        (postGetToken cfg w (.ok { UserID := u })).reply = .err e
          ∧ (postGetToken cfg w (.ok { UserID := u })).spawned = []
          ∧ (servePostGetToken cfg w (.ok { UserID := u })).goroutines = []
          ∧ (postGetToken cfg w (.ok { UserID := u })).calls.head?
              = some (Call.CreateRoom (sentCreate (createRoomId w.now u)))
          ∧ countCreateRoom (postGetToken cfg w (.ok { UserID := u })).calls = 1
          ∧ countDeleteRoom (postGetToken cfg w (.ok { UserID := u })).calls = 0)
      ∧ (∀ e, (w.CreateRoom (sentCreate (createRoomId w.now u))).2 = some e →
          (w.ToJWT (issuedToken cfg (createRoomId w.now u) u)).2 = none →
          (postGetToken cfg w (.ok { UserID := u })).reply
              = .json 200
                  [("token", .str (w.ToJWT (issuedToken cfg (createRoomId w.now u) u)).1),
                   ("room", .room (w.CreateRoom (sentCreate (createRoomId w.now u))).1)]
            ∧ (postGetToken cfg w (.ok { UserID := u })).spawned = [createRoomId w.now u]
            ∧ (servePostGetToken cfg w (.ok { UserID := u })).goroutines
                = [noxJoinRoom cfg w (createRoomId w.now u)]) := by
  constructor
  · intro e he
    simp only [servePostGetToken, postGetToken, userID_beq_false hu, getToken_eq,
      createRoom_eq, he]
    exact ⟨rfl, rfl, rfl, rfl, rfl, rfl⟩
  · intro e _ hok
    simp only [servePostGetToken, postGetToken, userID_beq_false hu, getToken_eq,
      createRoom_eq, hok]
    exact ⟨rfl, rfl, rfl⟩

theorem sampleWorld_roomId : createRoomId sampleWorld.now "alice" = "alice-20241103013000" := by
  decide

/-- Witness of C1 at userid "alice" in `sampleWorld`. -/
theorem postGetToken_contract_witness :
    "alice" ≠ ""
      ∧ (postGetToken sampleConfig sampleWorld (.ok { UserID := "alice" })).calls
          = [Call.CreateRoom { Name := "alice-20241103013000", EmptyTimeout := 600,
                               MaxParticipants := 10 },
             Call.ToJWT { apiKey := "key", secret := "secret",
                          grant := some { RoomJoin := true, Room := "alice-20241103013000",
                                          CanPublish := some true,
                                          CanSubscribe := some true },
                          identity := "human", name := "alice",
                          validFor := 3600 * 1000000000 }]
      ∧ (postGetToken sampleConfig sampleWorld (.ok { UserID := "alice" })).reply
          = .json 200
              [("token", .str "jwt:human:alice"),
               ("room", .room (some { Sid := "RM_1", Name := "alice-20241103013000",
                                      EmptyTimeout := 600, MaxParticipants := 10 }))] := by
  have h := postGetToken_contract sampleConfig sampleWorld "alice" (by decide)
  rw [sampleWorld_roomId] at h
  exact ⟨by decide, h.1, (h.2.2.2 rfl).1⟩

/-- Witness of C2 at the request decoded from `{}`. -/
theorem postGetToken_empty_userid_witness :
    (postGetToken sampleConfig sampleWorld (.ok { UserID := "" })).reply
        = .json 400 [("error", .str "userid is required")]
      ∧ (postGetToken sampleConfig sampleWorld (.ok { UserID := "" })).calls = []
      ∧ (postGetToken sampleConfig sampleWorld (.ok { UserID := "" })).spawned = []
      ∧ (servePostGetToken sampleConfig sampleWorld (.ok { UserID := "" })).goroutines = [] :=
  postGetToken_empty_userid sampleConfig sampleWorld { UserID := "" } rfl

/-- Witness of C3 at the request decoded from `{}`. -/
theorem postDeleteRoom_empty_roomid_witness :
    (postDeleteRoom sampleWorld (.ok { RoomID := "" })).reply
        = .json 400 [("error", .str "roomid is required")]
      ∧ countDeleteRoom (postDeleteRoom sampleWorld (.ok { RoomID := "" })).calls = 0
      ∧ (postDeleteRoom sampleWorld (.ok { RoomID := "" })).calls = [] :=
  postDeleteRoom_empty_roomid sampleWorld { RoomID := "" } rfl

/-- Witness of C8 for room "alice-20241103013000" with a delete operation that fails. -/
theorem postDeleteRoom_swallows_error_witness :
    "alice-20241103013000" ≠ ""
      ∧ (postDeleteRoom { sampleWorld with DeleteRoom := fun _ => some "room not found" }
            (.ok { RoomID := "alice-20241103013000" })).calls
          = [Call.DeleteRoom { Room := "alice-20241103013000" }]
      ∧ (postDeleteRoom { sampleWorld with DeleteRoom := fun _ => some "room not found" }
            (.ok { RoomID := "alice-20241103013000" })).reply
          = .json 200 [("room", .str "alice-20241103013000"), ("status", .str "deleted")] :=
  ⟨by decide,
   (postDeleteRoom_swallows_error sampleWorld (fun _ => some "room not found")
      "alice-20241103013000" (by decide)).1,
   (postDeleteRoom_swallows_error sampleWorld (fun _ => some "room not found")
      "alice-20241103013000" (by decide)).2.2⟩

/-- Witness of C10: userid "alice" against a failing signer, and against a failing
room-create. -/
theorem postGetToken_sign_or_create_failure_witness :
    "alice" ≠ ""
      ∧ ((postGetToken sampleConfig signFailWorld (.ok { UserID := "alice" })).reply
            = .err "api key and secret are required"
          ∧ (postGetToken sampleConfig signFailWorld (.ok { UserID := "alice" })).spawned = []
          ∧ (postGetToken sampleConfig signFailWorld (.ok { UserID := "alice" })).calls.head?
              = some (Call.CreateRoom { Name := "alice-20241103013000", EmptyTimeout := 600,
                                        MaxParticipants := 10 }))
      ∧ ((postGetToken sampleConfig createFailWorld (.ok { UserID := "alice" })).reply
            = .json 200 [("token", .str "jwt:human:alice"), ("room", .room none)]
          ∧ (postGetToken sampleConfig createFailWorld (.ok { UserID := "alice" })).spawned
              = ["alice-20241103013000"]) := by
  have h₁ := (postGetToken_sign_or_create_failure sampleConfig signFailWorld "alice" (by decide)).1
    "api key and secret are required" rfl
  have h₂ := (postGetToken_sign_or_create_failure sampleConfig createFailWorld "alice" (by decide)).2
    "twirp error unavailable" rfl rfl
  have e₁ : createRoomId signFailWorld.now "alice" = "alice-20241103013000" :=
    sampleWorld_roomId
  have e₂ : createRoomId createFailWorld.now "alice" = "alice-20241103013000" :=
    sampleWorld_roomId
  rw [e₁] at h₁
  rw [e₂] at h₂
  exact ⟨by decide, ⟨h₁.1, h₁.2.1, h₁.2.2.2.1⟩, ⟨h₂.1, h₂.2.1⟩⟩

/-! ### Start-up -/

theorem load_ok (envMap : List (String × String)) (env : Environ) :
    (godotenv.Load (.ok envMap) env).2 = none := rfl

theorem getEnv_ok (envMap : List (String × String)) (env : Environ) (key : String) :
    getEnv (.ok envMap) env key
      = .returned (os.Getenv (godotenv.Load (.ok envMap) env).1 key)
          (godotenv.Load (.ok envMap) env).1 := rfl

theorem getEnv_error (e : GoError) (env : Environ) (key : String) :
    getEnv (.error e) env key = .halted "Error loading .env file" := rfl

/-- Counterexample to C6 as stated: a `.env` file that loads but lacks
`LIVEKIT_API_KEY`, in a process environment without it.  The key has no value in the
loaded environment, yet `getEnv` returns (the empty string) and the three variables are
initialised with an empty API key. -/
theorem getEnv_missing_key_returns :
    (godotenv.Load (.ok [("LIVEKIT_API_SECRET", "s"), ("LIVEKIT_HOST", "h")]) []).1.lookup
        "LIVEKIT_API_KEY" = none
      ∧ getEnv (.ok [("LIVEKIT_API_SECRET", "s"), ("LIVEKIT_HOST", "h")]) [] "LIVEKIT_API_KEY"
          = .returned "" [("LIVEKIT_HOST", "h"), ("LIVEKIT_API_SECRET", "s")]
      ∧ initVars (.ok [("LIVEKIT_API_SECRET", "s"), ("LIVEKIT_HOST", "h")]) []
          = .returned { apiKey := "", apiSecret := "s", HOST := "h" }
              [("LIVEKIT_HOST", "h"), ("LIVEKIT_API_SECRET", "s")] := by
  decide

/-- C6 (amended): `getEnv` halts the process exactly when loading `.env` fails, and then
so does the initialisation of the three variables.  When `.env` loads, `getEnv` returns
the value the key has in the loaded environment, which is the empty string when the key
has no value there. -/
theorem getEnv_halts_iff_load_fails (file : Except GoError (List (String × String)))
    (env : Environ) (key : String) :
    ((∃ m, getEnv file env key = .halted m) ↔ ∃ e, file = .error e)
      ∧ ((∃ m, initVars file env = .halted m) ↔ ∃ e, file = .error e)
      ∧ (∀ envMap, file = .ok envMap →
          getEnv file env key
              = .returned (os.Getenv (godotenv.Load file env).1 key) (godotenv.Load file env).1
            ∧ ((godotenv.Load file env).1.lookup key = none →
                getEnv file env key = .returned "" (godotenv.Load file env).1)) := by
  cases file with
  | error e =>
    refine ⟨⟨fun _ => ⟨e, rfl⟩, fun _ => ⟨_, rfl⟩⟩,
      ⟨fun _ => ⟨e, rfl⟩, fun _ => ⟨_, rfl⟩⟩, ?_⟩
    intro envMap h
    cases h
  | ok envMap =>
    refine ⟨⟨?_, ?_⟩, ⟨?_, ?_⟩, ?_⟩
    · rintro ⟨m, hm⟩
      rw [getEnv_ok] at hm
      cases hm
    · rintro ⟨e, he⟩
      cases he
    · rintro ⟨m, hm⟩
      simp only [initVars, getEnv_ok] at hm
      cases hm
    · rintro ⟨e, he⟩
      cases he
    · intro envMap' _
      refine ⟨rfl, fun hnone => ?_⟩
      rw [getEnv_ok, os.Getenv, hnone]
      rfl

/-- Witness of the amended C6: the `.env` file that lacks `LIVEKIT_API_KEY`. -/
theorem getEnv_halts_iff_load_fails_witness :
    getEnv (.ok [("LIVEKIT_API_SECRET", "s"), ("LIVEKIT_HOST", "h")]) [] "LIVEKIT_API_KEY"
      = .returned ""
          (godotenv.Load (.ok [("LIVEKIT_API_SECRET", "s"), ("LIVEKIT_HOST", "h")]) []).1 :=
  ((getEnv_halts_iff_load_fails (.ok [("LIVEKIT_API_SECRET", "s"), ("LIVEKIT_HOST", "h")]) []
      "LIVEKIT_API_KEY").2.2 _ rfl).2 (by decide)

end SttXTts
